import Mathlib

/-!
Verification of `sync-tools` (src/sync.hpp), a minimal C++ concurrency
library with two components:

* `synctools::Channel<T>` — a bounded, thread-safe FIFO channel with
  blocking `write`/`read`;
* `synctools::ParallelFunction` — a call wrapper that acquires a
  caller-supplied vector of shared mutex handles around a wrapped call.

The embedding below is shallow.  A channel is its observable state
(buffer contents plus capacity); `write`/`read` are partial operations
that return `none` exactly when the source operation would block
(`while (is_full()) wait;` / `while (is_empty()) wait;`): with no
interfering thread a blocked operation never completes, so `none`
models "does not complete".  `std::queue` pushes at the back and pops
at the front, so the buffer is a `List` with append at the back and
removal at the front.  Buffer sizes are `size_t` in the source, hence
`Nat` here.

For `ParallelFunction` the lock behaviour is modelled as the sequence
of lock events an invocation emits.  Crucially, in the source
(`operator()`, sync.hpp:149-153) the `std::scoped_lock` is a local
variable of the lambda passed to `unpack_call`; it is destroyed when
that lambda returns, so every mutex is unlocked again before
`this->function` is invoked.  The event trace below reproduces that
order faithfully.
-/

/-- Shallow state of `synctools::Channel<T>`: the `std::queue<T> buffer`
(front of the list = front of the queue) and the `size_t max_size`. -/
structure Channel (T : Type) where
  buffer : List T
  max_size : Nat
deriving Repr, DecidableEq

/-- `Channel::Channel(size_t size)`: sets `max_size` only; the buffer is
default-constructed empty.  No validation is performed on `size`. -/
def Channel.new (T : Type) (size : Nat) : Channel T :=
  { buffer := [], max_size := size }

/-- `Channel::is_empty`: `buffer.empty()`. -/
def Channel.is_empty {T : Type} (c : Channel T) : Bool :=
  c.buffer.isEmpty

/-- `Channel::is_full`: `buffer.size() == max_size`. -/
def Channel.is_full {T : Type} (c : Channel T) : Bool :=
  c.buffer.length == c.max_size

/-- `Channel::write(T value)`: waits while `is_full()`; once not full,
pushes `value` at the back (and notifies one reader, irrelevant to the
state).  `none` models the call blocking (it cannot complete without
an interfering read). -/
def Channel.write {T : Type} (c : Channel T) (value : T) : Option (Channel T) :=
  if c.is_full then none
  else some { c with buffer := c.buffer ++ [value] }

/-- `Channel::read()`: waits while `is_empty()`; once non-empty, takes
`buffer.front()`, pops it (and notifies one writer).  `none` models the
call blocking on an empty buffer. -/
def Channel.read {T : Type} (c : Channel T) : Option (T × Channel T) :=
  match c.buffer with
  | [] => none
  | x :: rest => some (x, { c with buffer := rest })

/-- A sequence of `write` calls with no interleaved reads; `none` if any
of them blocks. -/
def Channel.writeAll {T : Type} (c : Channel T) (vs : List T) : Option (Channel T) :=
  match vs with
  | [] => some c
  | v :: rest =>
    match c.write v with
    | none => none
    | some c' => c'.writeAll rest

/-- A sequence of `n` `read` calls; `none` if any of them blocks. -/
def Channel.readN {T : Type} (c : Channel T) (n : Nat) : Option (List T × Channel T) :=
  match n with
  | 0 => some ([], c)
  | n + 1 =>
    match c.read with
    | none => none
    | some (x, c') =>
      match c'.readN n with
      | none => none
      | some (xs, c'') => some (x :: xs, c'')

/-- The states a channel can reach from a given state through completed
`write` and `read` operations. -/
inductive Channel.Reachable {T : Type} : Channel T → Channel T → Prop
  | refl (c : Channel T) : Channel.Reachable c c
  | write {c c' c'' : Channel T} {v : T} :
      Channel.Reachable c c' → c'.write v = some c'' → Channel.Reachable c c''
  | read {c c' c'' : Channel T} {v : T} :
      Channel.Reachable c c' → c'.read = some (v, c'') → Channel.Reachable c c''

/-! ### ParallelFunction -/

/-- Identity of a `std::shared_ptr<std::mutex>` handle: two handles are
the same lock iff they have the same id. -/
abbrev MutexId := Nat

/-- `unpack_call(func, container)`: calls `func` with the elements of
`container` as its arguments (`func(container[0], …, container[n-1])`).
In the shallow embedding the variadic argument pack is the list itself. -/
def unpack_call {C R : Type} (func : List C → R) (container : List C) : R :=
  func container

/-- Observable lock events emitted by one invocation of
`ParallelFunction::operator()`:
`lockAll ms` — the `std::scoped_lock` constructor atomically acquires
every mutex in `ms`; `unlockAll ms` — its destructor releases them all;
`beginExec`/`endExec` — the wrapped function body starts / finishes
(normally or by an exception unwinding out of it). -/
inductive LockEvent where
  | lockAll (ms : List MutexId)
  | unlockAll (ms : List MutexId)
  | beginExec
  | endExec
deriving Repr, DecidableEq

/-- Effect of one event on the set of currently-held locks. -/
def LockEvent.apply (held : List MutexId) : LockEvent → List MutexId
  | .lockAll ms => held ++ ms
  | .unlockAll ms => held.filter (fun m => !(ms.contains m))
  | .beginExec => held
  | .endExec => held

/-- Locks held after a whole event sequence, starting from none held. -/
def heldAfter (evs : List LockEvent) : List MutexId :=
  evs.foldl LockEvent.apply []

/-- Locks held at the moment the wrapped function body starts executing
(`none` if the sequence contains no `beginExec`). -/
def heldAtExecFrom (held : List MutexId) : List LockEvent → Option (List MutexId)
  | [] => none
  | .beginExec :: _ => some held
  | e :: rest => heldAtExecFrom (e.apply held) rest

def heldAtExec (evs : List LockEvent) : Option (List MutexId) :=
  heldAtExecFrom [] evs

/-- All mutexes an event sequence ever acquires. -/
def locksAcquired : List LockEvent → List MutexId
  | [] => []
  | .lockAll ms :: rest => ms ++ locksAcquired rest
  | _ :: rest => locksAcquired rest

/-- State of a `synctools::ParallelFunction<Func, Return, Args...>`:
the copied `std::vector<std::shared_ptr<std::mutex>> mutexes` (as handle
ids) and the copied `Func function`.  A throwing wrapped function is a
function into `Except E R`. -/
structure ParallelFunction (A R E : Type) where
  mutexes : List MutexId
  function : A → Except E R

/-- `ParallelFunction::ParallelFunction(const std::vector<SPtrMutex>& mtxs,
Func inner)`: copy-assigns `this->mutexes = mtxs` and
`this->function = inner`, with no validation of the collection. -/
def ParallelFunction.construct {A R E : Type}
    (mtxs : List MutexId) (inner : A → Except E R) : ParallelFunction A R E :=
  { mutexes := mtxs, function := inner }

/-- `ParallelFunction::operator()(Args&&... args)`, faithfully to the
source (sync.hpp:149-153): first
`unpack_call([](auto&&... locks) { std::scoped_lock lock(locks...); }, this->mutexes)`
— the `scoped_lock` is a LOCAL of the lambda, so it acquires all mutexes
and releases them again when the lambda body ends — and only then
`return this->function(std::forward(args)...)`.  The result is the
wrapped function's result (value or thrown condition) paired with the
emitted event sequence. -/
def ParallelFunction.callFull {A R E : Type}
    (pf : ParallelFunction A R E) (args : A) : Except E R × List LockEvent :=
  let lockEvents :=
    unpack_call (fun locks => [LockEvent.lockAll locks, LockEvent.unlockAll locks])
      pf.mutexes
  (pf.function args, lockEvents ++ [LockEvent.beginExec, LockEvent.endExec])

/-- The result an invocation yields to the caller. -/
def ParallelFunction.call {A R E : Type}
    (pf : ParallelFunction A R E) (args : A) : Except E R :=
  (pf.callFull args).1

/-- The lock events an invocation emits. -/
def ParallelFunction.callEvents {A R E : Type}
    (pf : ParallelFunction A R E) (args : A) : List LockEvent :=
  (pf.callFull args).2

/-- Invocation as a state transformer on the invoker object:
`operator()` assigns to neither `mutexes` nor `function`, so the object
after the call is the object before it. -/
def ParallelFunction.invoke {A R E : Type}
    (pf : ParallelFunction A R E) (args : A) : Except E R × ParallelFunction A R E :=
  (pf.call args, pf)

/-- A heap of caller-owned `std::vector<SPtrMutex>` variables, addressed
by name; used to state that construction copies the caller's vector
rather than aliasing it. -/
def VecHeap := Nat → List MutexId

/-- Overwrite the caller's vector at address `addr` (modelling the
caller adding, removing or replacing handles after construction). -/
def VecHeap.update (h : VecHeap) (addr : Nat) (v : List MutexId) : VecHeap :=
  fun a => if a = addr then v else h a

/-- Construction reading the caller's vector out of the heap: the
constructor copy-assigns the vector's current contents. -/
def ParallelFunction.constructFrom {A R E : Type}
    (h : VecHeap) (addr : Nat) (inner : A → Except E R) : ParallelFunction A R E :=
  ParallelFunction.construct (h addr) inner

/-- The locks `operator()` acquires: it reads `this->mutexes`, never the
caller's vector, so the current heap is irrelevant. -/
def ParallelFunction.locksOnInvoke {A R E : Type}
    (pf : ParallelFunction A R E) (_currentHeap : VecHeap) : List MutexId :=
  pf.mutexes


/-! ### A two-thread interleaving model

To settle the system-wide mutual-exclusion claim we run the event
sequences of two concurrent invocations against a global lock state:
a `lockAll` step is enabled only when none of its mutexes is currently
held (otherwise the `scoped_lock` constructor blocks), and
`beginExec`/`endExec` mark the interval during which a thread is inside
its wrapped function body. -/

/-- Global state of the interleaving model: the mutexes currently held
by any thread, and the ids of the threads currently executing their
wrapped function body. -/
structure SysState where
  held : List MutexId
  inExec : List Nat
deriving Repr, DecidableEq

/-- One thread taking one step.  `none` means the step is not enabled
(the thread would block there). -/
def sysStep (s : SysState) (t : Nat) (e : LockEvent) : Option SysState :=
  match e with
  | .lockAll ms =>
    if ms.any (fun m => s.held.contains m) then none
    else some { s with held := s.held ++ ms }
  | .unlockAll ms =>
    some { s with held := s.held.filter (fun m => !(ms.contains m)) }
  | .beginExec => some { s with inExec := t :: s.inExec }
  | .endExec => some { s with inExec := s.inExec.filter (fun x => x != t) }

/-- Run a schedule (a global interleaving of `(thread, event)` steps),
returning the sequence of states after each step, or `none` if some
step is taken where it is not enabled. -/
def sysRun (s : SysState) : List (Nat × LockEvent) → Option (List SysState)
  | [] => some []
  | (t, e) :: rest =>
    match sysStep s t e with
    | none => none
    | some s' =>
      match sysRun s' rest with
      | none => none
      | some l => some (s' :: l)

/-- The subsequence of events a given thread performs in a schedule. -/
def projThread (sched : List (Nat × LockEvent)) (t : Nat) : List LockEvent :=
  (sched.filter (fun p => p.1 == t)).map Prod.snd

/-- Whether threads `0` and `1` are ever inside their wrapped function
bodies at the same time. -/
def hasOverlap (states : List SysState) : Bool :=
  states.any (fun s => s.inExec.contains 0 && s.inExec.contains 1)

/-- A concrete invoker used for the mutual-exclusion scenario: its lock
set is the single shared mutex handle `0`. -/
def pfShared0 : ParallelFunction Unit Nat Unit :=
  ParallelFunction.construct [0] (fun _ => Except.ok 0)

/-- A concrete global interleaving of two concurrent invocations of
`pfShared0` (threads 0 and 1): each thread performs exactly the event
sequence `operator()` emits, and the two function bodies run at the
same time. -/
def overlapSchedule : List (Nat × LockEvent) :=
  [(0, .lockAll [0]), (0, .unlockAll [0]),
   (1, .lockAll [0]), (1, .unlockAll [0]),
   (0, .beginExec), (1, .beginExec),
   (0, .endExec), (1, .endExec)]

/-! ### Theorems -/

theorem Channel.write_some_iff {T : Type} (c : Channel T) (v : T) (c' : Channel T) :
    c.write v = some c' ↔ c.buffer.length ≠ c.max_size ∧ c' = { c with buffer := c.buffer ++ [v] } := by
  unfold Channel.write Channel.is_full
  by_cases h : c.buffer.length = c.max_size
  · simp [h]
  · simp [h]
    exact eq_comm

theorem Channel.writeAll_ok {T : Type} (vs : List T) (c : Channel T)
    (h : c.buffer.length + vs.length ≤ c.max_size) :
    c.writeAll vs = some { c with buffer := c.buffer ++ vs } := by
  induction vs generalizing c with
  | nil => simp [Channel.writeAll]
  | cons v rest ih =>
    have hlt : c.buffer.length < c.max_size := by
      simp at h
      omega
    have hw : c.write v = some { c with buffer := c.buffer ++ [v] } := by
      rw [Channel.write_some_iff]
      exact ⟨Nat.ne_of_lt hlt, rfl⟩
    simp [Channel.writeAll, hw]
    have h' : ({ c with buffer := c.buffer ++ [v] } : Channel T).buffer.length + rest.length
        ≤ ({ c with buffer := c.buffer ++ [v] } : Channel T).max_size := by
      simp at h ⊢
      omega
    have := ih { c with buffer := c.buffer ++ [v] } h'
    rw [this]
    simp

theorem Channel.readN_ok {T : Type} (n : Nat) (c : Channel T)
    (h : n ≤ c.buffer.length) :
    c.readN n = some (c.buffer.take n, { c with buffer := c.buffer.drop n }) := by
  induction n generalizing c with
  | zero => simp [Channel.readN]
  | succ m ih =>
    match hbuf : c.buffer with
    | [] => rw [hbuf] at h; simp at h
    | x :: rest =>
      have hr : c.read = some (x, { c with buffer := rest }) := by
        unfold Channel.read
        rw [hbuf]
      simp [Channel.readN, hr]
      have h' : m ≤ ({ c with buffer := rest } : Channel T).buffer.length := by
        rw [hbuf] at h
        simpa using Nat.le_of_succ_le_succ h
      have := ih { c with buffer := rest } h'
      rw [this]

theorem filter_not_contains_self (ms : List MutexId) :
    ms.filter (fun m => !(ms.contains m)) = [] := by
  rw [List.filter_eq_nil_iff]
  intro a ha
  simp
  exact ha

/-- Helper: an invocation's lock-event trace ends with no lock held:
the group acquired by `lockAll` is exactly the group removed by
`unlockAll`. -/
theorem heldAfter_invocation {A R E : Type}
    (pf : ParallelFunction A R E) (args : A) :
    heldAfter (pf.callEvents args) = [] := by
  show (([] : List MutexId) ++ pf.mutexes).filter
      (fun m => !(pf.mutexes.contains m)) = []
  rw [List.nil_append]
  exact filter_not_contains_self pf.mutexes

/-- Helper: `read` completes exactly when the buffer is non-empty, and
then removes the front element, leaving the capacity unchanged. -/
theorem Channel.read_some_iff {T : Type} (c : Channel T) (v : T) (c' : Channel T) :
    c.read = some (v, c') ↔ c.buffer = v :: c'.buffer ∧ c'.max_size = c.max_size := by
  cases c with
  | mk buf ms =>
    cases c' with
    | mk buf' ms' =>
      cases buf with
      | nil => simp [Channel.read]
      | cons x rest =>
        simp [Channel.read]
        constructor
        · rintro ⟨rfl, rfl, rfl⟩
          exact ⟨⟨rfl, rfl⟩, rfl⟩
        · rintro ⟨⟨rfl, rfl⟩, rfl⟩
          exact ⟨rfl, rfl, rfl⟩

/-- C2: every invocation of `ParallelFunction::operator()` releases all
locks of the invoker's set before the invocation returns or propagates
an exception; in particular when the wrapped function throws, no lock
of the set is still held when the caller observes the exception. -/
theorem C2_locks_released_on_every_exit {A R E : Type}
    (pf : ParallelFunction A R E) (args : A) :
    heldAfter (pf.callEvents args) = [] ∧
    (∀ e : E, pf.call args = Except.error e → heldAfter (pf.callEvents args) = []) :=
  ⟨heldAfter_invocation pf args, fun _ _ => heldAfter_invocation pf args⟩

/-- Witness for C2 at a wrapped function that throws `42`. -/
theorem C2_locks_released_on_every_exit_witness :
    heldAfter ((ParallelFunction.construct (A := Unit) (R := Nat) [0, 1]
      (fun _ => Except.error 42)).callEvents ()) = [] :=
  (C2_locks_released_on_every_exit
    (ParallelFunction.construct [0, 1] (fun _ => Except.error 42)) ()).2 42 rfl

/-- C1: the claim says the wrapped function body executes while every
lock of a non-empty `mutexes` set is held.  The code violates it: the
`std::scoped_lock` is a local of the lambda passed to `unpack_call` and
is destroyed when that lambda returns, so for an invoker whose set is
the single mutex `0`, no lock at all is held when the body starts. -/
theorem C1_body_runs_with_no_locks_held :
    (ParallelFunction.construct (A := Unit) (R := Nat) (E := Unit) [0]
      (fun _ => Except.ok 0)).mutexes ≠ [] ∧
    heldAtExec ((ParallelFunction.construct (A := Unit) (R := Nat) (E := Unit) [0]
      (fun _ => Except.ok 0)).callEvents ()) = some [] := by
  decide

/-- C3: on a channel whose buffer is empty (e.g. freshly constructed)
with capacity at least `n`, `n` writes of `[v1, …, vn]` with no
interleaved reads all complete, and `n` subsequent reads return exactly
`[v1, …, vn]` in that order (global FIFO). -/
theorem C3_fifo_order {T : Type} (c : Channel T) (vs : List T)
    (hempty : c.buffer = []) (hcap : vs.length ≤ c.max_size) :
    ∃ c' c'', c.writeAll vs = some c' ∧ c'.readN vs.length = some (vs, c'') := by
  refine ⟨{ c with buffer := c.buffer ++ vs },
    { c with buffer := (c.buffer ++ vs).drop vs.length }, ?_, ?_⟩
  · exact Channel.writeAll_ok vs c (by rw [hempty]; simpa)
  · rw [Channel.readN_ok vs.length { c with buffer := c.buffer ++ vs }
      (by rw [hempty]; simp)]
    simp [hempty]

/-- Witness for C3: capacity 3, writes `[10, 20]`, reads `[10, 20]`. -/
theorem C3_fifo_order_witness :
    ∃ c' c'', (Channel.new Nat 3).writeAll [10, 20] = some c' ∧
      c'.readN 2 = some ([10, 20], c'') :=
  C3_fifo_order (Channel.new Nat 3) [10, 20] rfl (by decide)

/-- C4: the buffer length of any state reachable from a freshly
constructed channel of capacity `cap` never exceeds the capacity (it is
a `Nat`, hence never negative), and the capacity itself is immutable;
so the invariant holds initially and is preserved by every completed
`write` and `read`. -/
theorem C4_buffer_within_capacity {T : Type} (cap : Nat) (c : Channel T)
    (h : Channel.Reachable (Channel.new T cap) c) :
    c.buffer.length ≤ c.max_size ∧ c.max_size = cap := by
  induction h with
  | refl => simp [Channel.new]
  | write hr hw ih =>
    obtain ⟨hlen, hcap⟩ := ih
    rw [Channel.write_some_iff] at hw
    obtain ⟨hne, rfl⟩ := hw
    refine ⟨?_, by simpa⟩
    simp
    omega
  | read hr hrd ih =>
    obtain ⟨hlen, hcap⟩ := ih
    rw [Channel.read_some_iff] at hrd
    obtain ⟨hbuf, hms⟩ := hrd
    refine ⟨?_, by omega⟩
    rw [hms]
    rw [hbuf] at hlen
    simp at hlen
    omega

/-- Witness for C4 at the state reached by writing `5` into a fresh
channel of capacity 2. -/
theorem C4_buffer_within_capacity_witness :
    (⟨[5], 2⟩ : Channel Nat).buffer.length ≤ (⟨[5], 2⟩ : Channel Nat).max_size ∧
      (⟨[5], 2⟩ : Channel Nat).max_size = 2 :=
  C4_buffer_within_capacity 2 ⟨[5], 2⟩
    (Channel.Reachable.write (v := 5) (Channel.Reachable.refl (Channel.new Nat 2))
      (by decide))

/-- C5: an invocation of `ParallelFunction::operator()` yields exactly
what the wrapped function yields on the same arguments: the same
return value when it returns, the same exception when it throws. -/
theorem C5_invocation_transparent {A R E : Type}
    (pf : ParallelFunction A R E) (args : A) :
    (∀ r : R, pf.function args = Except.ok r → pf.call args = Except.ok r) ∧
    (∀ e : E, pf.function args = Except.error e → pf.call args = Except.error e) :=
  ⟨fun _ h => h, fun _ h => h⟩

/-- Witness for C5: a returning wrapped function and a throwing one. -/
theorem C5_invocation_transparent_witness :
    (ParallelFunction.construct (A := Unit) (E := Unit) [0]
      (fun _ => Except.ok 7)).call () = Except.ok 7 ∧
    (ParallelFunction.construct (A := Unit) (R := Nat) [0]
      (fun _ => Except.error 3)).call () = Except.error 3 :=
  ⟨(C5_invocation_transparent
      (ParallelFunction.construct [0] (fun _ => Except.ok 7)) ()).1 7 rfl,
   (C5_invocation_transparent
      (ParallelFunction.construct [0] (fun _ => Except.error 3)) ()).2 3 rfl⟩

/-- C6: constructing a channel with capacity 0 performs no validation
and succeeds (empty buffer, `max_size = 0`), and every state reachable
from it satisfies the `write` wait condition `is_full`, so a `write`
never completes: it blocks forever. -/
theorem C6_capacity_zero_first_write_blocks (T : Type) (v : T) (c : Channel T)
    (h : Channel.Reachable (Channel.new T 0) c) :
    (Channel.new T 0).buffer = [] ∧ (Channel.new T 0).max_size = 0 ∧
    c.is_full = true ∧ c.write v = none := by
  have hc : c = Channel.new T 0 := by
    induction h with
    | refl => rfl
    | write hr hw ih =>
      subst ih
      simp [Channel.new, Channel.write, Channel.is_full] at hw
    | read hr hrd ih =>
      subst ih
      simp [Channel.new, Channel.read] at hrd
  subst hc
  refine ⟨rfl, rfl, rfl, rfl⟩

/-- Witness for C6 at a fresh `Channel Nat` of capacity 0 and the
value 7. -/
theorem C6_capacity_zero_first_write_blocks_witness :
    (Channel.new Nat 0).buffer = [] ∧ (Channel.new Nat 0).max_size = 0 ∧
    (Channel.new Nat 0).is_full = true ∧ (Channel.new Nat 0).write 7 = none :=
  C6_capacity_zero_first_write_blocks Nat 7 (Channel.new Nat 0)
    (Channel.Reachable.refl (Channel.new Nat 0))

/-- C7: on a channel of capacity 2, `write 1` and `write 2` complete
without waiting (the buffer is not full before either), `write 3` on
the full buffer blocks, `read` returns `1` and frees a slot, and after
`write 3` completes the buffer is exactly `[2, 3]` front to back. -/
theorem C7_capacity_two_scenario :
    (Channel.new Nat 2).is_full = false ∧
    (Channel.new Nat 2).write 1 = some ⟨[1], 2⟩ ∧
    (⟨[1], 2⟩ : Channel Nat).is_full = false ∧
    (⟨[1], 2⟩ : Channel Nat).write 2 = some ⟨[1, 2], 2⟩ ∧
    (⟨[1, 2], 2⟩ : Channel Nat).is_full = true ∧
    (⟨[1, 2], 2⟩ : Channel Nat).write 3 = none ∧
    (⟨[1, 2], 2⟩ : Channel Nat).read = some (1, ⟨[2], 2⟩) ∧
    (⟨[2], 2⟩ : Channel Nat).write 3 = some ⟨[2, 3], 2⟩ := by
  decide

/-- C8: a `ParallelFunction` built from the empty lock collection is an
unsynchronized call: the invocation yields exactly what the wrapped
function yields on the same arguments, and its event trace acquires no
lock and ends with no lock held. -/
theorem C8_empty_lock_collection_unsynchronized {A R E : Type}
    (f : A → Except E R) (args : A) :
    (ParallelFunction.construct [] f).call args = f args ∧
    locksAcquired ((ParallelFunction.construct [] f).callEvents args) = [] ∧
    heldAfter ((ParallelFunction.construct [] f).callEvents args) = [] :=
  ⟨rfl, rfl, rfl⟩

/-- C9: the claim says two concurrent invocations whose lock sets share
a handle never execute their wrapped bodies overlapping in time.  The
code violates it: because each invocation releases its locks before
invoking the function, the schedule `overlapSchedule` is a valid
interleaving of two invocations of `pfShared0` (both threads perform
exactly the trace `operator()` emits, every `lockAll` fires with its
mutex free) in which both bodies are in execution at once. -/
theorem C9_mutual_exclusion_violated :
    projThread overlapSchedule 0 = pfShared0.callEvents () ∧
    projThread overlapSchedule 1 = pfShared0.callEvents () ∧
    (sysRun ⟨[], []⟩ overlapSchedule).map hasOverlap = some true := by
  decide

/-- C10: construction copies the caller's vector of shared lock handles
and the function into the invoker; overwriting the caller's vector
afterwards does not change the locks the invoker acquires on
invocation, and an invocation leaves the invoker's `mutexes` and
`function` fields unchanged. -/
theorem C10_construction_copies_state {A R E : Type} (h : VecHeap) (addr : Nat)
    (f : A → Except E R) (v' : List MutexId) (args : A) :
    (ParallelFunction.constructFrom h addr f).mutexes = h addr ∧
    (ParallelFunction.constructFrom h addr f).function = f ∧
    (ParallelFunction.constructFrom h addr f).locksOnInvoke (h.update addr v') = h addr ∧
    (ParallelFunction.constructFrom h addr f).invoke args =
      ((ParallelFunction.constructFrom h addr f).function args,
        ParallelFunction.constructFrom h addr f) :=
  ⟨rfl, rfl, rfl, rfl⟩

/-- Witness for C8 at a concrete wrapped function and argument. -/
theorem C8_empty_lock_collection_unsynchronized_witness :
    (ParallelFunction.construct (E := Unit) []
      (fun _ : Unit => Except.ok 9)).call () = Except.ok 9 ∧
    locksAcquired ((ParallelFunction.construct (E := Unit) []
      (fun _ : Unit => Except.ok 9)).callEvents ()) = [] ∧
    heldAfter ((ParallelFunction.construct (E := Unit) []
      (fun _ : Unit => Except.ok 9)).callEvents ()) = [] :=
  C8_empty_lock_collection_unsynchronized (fun _ => Except.ok 9) ()

/-- Witness for C10 at a concrete heap, address, function, overwrite
and argument. -/
theorem C10_construction_copies_state_witness :
    (ParallelFunction.constructFrom (E := Unit) (fun _ => [0, 1]) 0
      (fun _ : Unit => Except.ok 4)).mutexes = [0, 1] ∧
    (ParallelFunction.constructFrom (E := Unit) (fun _ => [0, 1]) 0
      (fun _ : Unit => Except.ok 4)).function = (fun _ : Unit => Except.ok 4) ∧
    (ParallelFunction.constructFrom (E := Unit) (fun _ => [0, 1]) 0
      (fun _ : Unit => Except.ok 4)).locksOnInvoke
        (VecHeap.update (fun _ => [0, 1]) 0 [2]) = [0, 1] ∧
    (ParallelFunction.constructFrom (E := Unit) (fun _ => [0, 1]) 0
      (fun _ : Unit => Except.ok 4)).invoke () =
      ((ParallelFunction.constructFrom (E := Unit) (fun _ => [0, 1]) 0
        (fun _ : Unit => Except.ok 4)).function (),
        ParallelFunction.constructFrom (fun _ => [0, 1]) 0
          (fun _ : Unit => Except.ok 4)) :=
  C10_construction_copies_state (fun _ => [0, 1]) 0 (fun _ => Except.ok 4) [2] ()
